import Mathlib

/-!
Verification development for the cleanbear job-assignment service.

The definitions below are a shallow embedding of the scheduling core of the
repository: `models.py` (domain model), `scheduler.py` (assignment engine) and
`fallback_handler.py` (fallback resolver).  Python clock strings of the form
"HH:MM" are embedded as `TimeStr` (a parsed hour/minute pair, or `malformed`
for a non-empty string on which `int()` raises); Python `date` values are
embedded as integers (only ordering and equality of dates are used); Python
floats (travel times, scores) are embedded as rationals; Python `None` and
empty-string falsiness are modelled explicitly where the source relies on
them.  The repository ships two generations of the data model: `scheduler.py`
and `main.py` use address-based fields (`address`, `home_address`,
`current_address`) that the checked-in `models.py` dataclasses do not declare;
the structures below follow the fields the scheduling code actually reads and
writes, while all methods (`can_handle_service`, `get_assignments_for_date`,
`add_assignment`, `can_assign_date`) are translated from `models.py`.
-/

namespace Cleanbear

/-- Embedding of a non-empty Python clock string: `valid h m` is a string that
`int()`-parses to hour `h` and minute `m` (a string without a colon parses with
minute 0), `malformed` is a non-empty string on which parsing raises. -/
inductive TimeStr where
  | valid (hour : Int) (minute : Int)
  | malformed
deriving DecidableEq, Repr

/-- Minutes from midnight denoted by a parsed clock string, `none` if parsing
raises (`ValueError`/`IndexError`). -/
def TimeStr.minutes? : TimeStr → Option Int
  | .valid h m => some (h * 60 + m)
  | .malformed => none

/-- Parse an optional clock string; `none` covers the Python `None` value, the
empty string and a malformed string alike (every path on which the source's
`try` block fails to produce minutes). -/
def parseTime? (t : Option TimeStr) : Option Int := t.bind TimeStr.minutes?

/-- Truthiness of a Python `Optional[str]`: `None` and `""` are falsy. -/
def optStrTruthy : Option String → Bool
  | some s => s ≠ ""
  | none => false

/-- Pythonic blank test `not s or s.strip() == ""` for a plain `str`. -/
def strBlank (s : String) : Bool := s.data.all Char.isWhitespace

/-- Blank test for an `Optional[str]` field (`None`, `""` or whitespace). -/
def optStrBlank : Option String → Bool
  | none => true
  | some s => strBlank s

/-- SystemRules from `models.py`.  In the source `work_start`/`work_end` are
"HH:mm" strings re-parsed with `map(int, s.split(':'))` at every use; a
malformed string would raise out of the scheduler, so they are embedded
already split into hour and minute. -/
structure SystemRules where
  work_start_hour : Int
  work_start_min : Int
  work_end_hour : Int
  work_end_min : Int
  max_preassign_days : Int
  default_buffer_min : Int
deriving DecidableEq, Repr

/-- Minutes from midnight of `work_start` (the source recomputes this at each
use from the clock string). -/
def SystemRules.workStartMinutes (r : SystemRules) : Int :=
  r.work_start_hour * 60 + r.work_start_min

/-- Minutes from midnight of `work_end`. -/
def SystemRules.workEndMinutes (r : SystemRules) : Int :=
  r.work_end_hour * 60 + r.work_end_min

/-- Job record (`models.py`, with the `address` field that `scheduler.py` and
`main.py` read in place of the older `lat`/`lng` pair).  `fixed_start_time`
embeds Python `None` and `""` as `none` (both are falsy at every use site;
`main.py` normalises `""` to `None` at ingestion). -/
structure Job where
  job_id : String
  service_type : String
  address : String
  date : Int
  duration_min : Int
  time_fixed : Option Bool := none
  fixed_start_time : Option TimeStr := none
  slot_type : Option String := none
  fallback_used : Bool := false
  fallback_details : List String := []
  error_reason : Option String := none
deriving DecidableEq, Repr

/-- Job.is_time_fixed from `models.py`: `self.time_fixed is True`. -/
def Job.is_time_fixed (j : Job) : Bool := j.time_fixed = some true

/-- Technician record (`models.py`, with the `home_address` field used by
`scheduler.py` and `main.py`). -/
structure Technician where
  technician_id : String
  home_address : String
  service_types : List String
  overtime_allowed : Bool
deriving DecidableEq, Repr

/-- Technician.can_handle_service: `service_type in self.service_types`. -/
def Technician.can_handle_service (t : Technician) (service_type : String) : Bool :=
  t.service_types.contains service_type

/-- Assignment record from `models.py`. -/
structure Assignment where
  job : Job
  technician : Technician
  estimated_start_time : Option TimeStr := none
  estimated_end_time : Option TimeStr := none
  travel_time_minutes : ℚ := 0
  status : String := "assigned"
  memo : String := ""
deriving DecidableEq, Repr

/-- TechnicianWorkingState from `models.py` (address-based variant used by
`scheduler.py`).  `assignments_by_date` is a Python dict from date to list of
assignments; it is embedded as an insertion-ordered association list, which is
exactly the iteration/ordering behaviour of a Python dict. -/
structure TechnicianWorkingState where
  technician : Technician
  current_address : String
  assignments_by_date : List (Int × List Assignment) := []
  last_work_end_time : Option TimeStr := none
  last_work_date : Option Int := none
deriving DecidableEq, Repr

/-- TechnicianWorkingState.get_assignments_for_date:
`self.assignments_by_date.get(target_date, [])`. -/
def TechnicianWorkingState.get_assignments_for_date
    (ws : TechnicianWorkingState) (target_date : Int) : List Assignment :=
  match ws.assignments_by_date.find? (fun p => p.1 == target_date) with
  | some p => p.2
  | none => []

/-- TechnicianWorkingState.add_assignment: create the date key with `[]` when
absent, then append the assignment to that date's list. -/
def TechnicianWorkingState.add_assignment
    (ws : TechnicianWorkingState) (assignment : Assignment) : TechnicianWorkingState :=
  let date_key := assignment.job.date
  let abd :=
    if ws.assignments_by_date.any (fun p => p.1 == date_key) then
      ws.assignments_by_date.map
        (fun p => if p.1 == date_key then (p.1, p.2 ++ [assignment]) else p)
    else
      ws.assignments_by_date ++ [(date_key, [assignment])]
  { ws with assignments_by_date := abd }

/-- Largest element of a list of dates (`max(assigned_days)` in the source),
`none` on the empty list. -/
def listMax? : List Int → Option Int
  | [] => none
  | x :: xs => some (xs.foldl max x)

/-- TechnicianWorkingState.can_assign_date from `models.py`: accept when fewer
than `max_preassign_days` distinct dates are populated, otherwise only a date
strictly later than the latest already-assigned date. -/
def TechnicianWorkingState.can_assign_date
    (ws : TechnicianWorkingState) (target_date : Int) (max_preassign_days : Int) : Bool :=
  let assigned_days := ws.assignments_by_date.map Prod.fst
  if (assigned_days.length : Int) < max_preassign_days then true
  else
    match listMax? assigned_days with
    | some latest_date => target_date > latest_date
    | none => true

/-- Result triple of the fit checkers `(can_fit, score, error_reason)`: on fit
the score is the travel time and the reason is `None`; on rejection the score
is `float('inf')` and never read, so only the reason is carried. -/
inductive FitResult where
  | fits (score : ℚ)
  | nofit (reason : String)
deriving DecidableEq, Repr

/-- Placeholder technician that `Scheduler._create_failed_assignment` invents
for a failed assignment. -/
def dummyTechnician : Technician :=
  { technician_id := "FAILED", home_address := "", service_types := [], overtime_allowed := false }

/-- Scheduler._create_failed_assignment: overwrite `job.error_reason` with the
reason and wrap the job in a failed-status assignment carrying the placeholder
technician.  The mutated job is returned alongside the assignment (the source
mutates the job object in place). -/
def createFailedAssignment (job : Job) (reason : String) : Assignment × Job :=
  let job2 := { job with error_reason := some reason }
  ({ job := job2, technician := dummyTechnician, estimated_start_time := none,
     estimated_end_time := none, travel_time_minutes := 0, status := "failed",
     memo := reason }, job2)

/-- Scheduler._minutes_to_time: render minutes as an "HH:MM" string (Python
floor division and modulo). -/
def minutesToTime (minutes : Int) : TimeStr :=
  .valid (Int.fdiv minutes 60) (Int.fmod minutes 60)

/-- Outcome of the per-assignment fixed-time conflict check inside the scan
loop of `_check_fixed_time_fit`: reject with a reason, `continue` to the next
assignment (the `except` branch), or fall through to the travel check. -/
inductive ScanStep where
  | reject (reason : String)
  | next
  | proceed
deriving DecidableEq, Repr

/-- One iteration's fixed-time-vs-fixed-time conflict check: per the source,
only existing assignments whose job is time-fixed with a truthy start string
are examined; a parse failure hits `continue`, skipping the rest of that
iteration; otherwise reject on half-open interval overlap. -/
def fixedScanOne (rules : SystemRules) (taskStart taskEnd : Int) (e : Assignment) : ScanStep :=
  if e.job.is_time_fixed && e.job.fixed_start_time.isSome then
    match parseTime? e.job.fixed_start_time with
    | none => .next
    | some existingStart =>
      let existingEnd := existingStart + e.job.duration_min + rules.default_buffer_min
      if ¬(taskEnd ≤ existingStart ∨ taskStart ≥ existingEnd) then .reject "시간 충돌"
      else .proceed
  else .proceed

/-- One iteration's travel-buffer check: when the existing assignment has a
truthy `estimated_end_time` that parses, reject if its end plus the travel
time exceeds the task start (a parse failure hits `pass`). -/
def travelReject (travel : ℚ) (taskStart : Int) (e : Assignment) : Bool :=
  match parseTime? e.estimated_end_time with
  | some existingEnd => decide ((existingEnd : ℚ) + travel > (taskStart : ℚ))
  | none => false

/-- Scan loop of `_check_fixed_time_fit` over the same-date existing
assignments, in list order, returning the first rejection reason if any. -/
def fixedScan (rules : SystemRules) (taskStart taskEnd : Int) (travel : ℚ) :
    List Assignment → Option String
  | [] => none
  | e :: rest =>
    match fixedScanOne rules taskStart taskEnd e with
    | .reject r => some r
    | .next => fixedScan rules taskStart taskEnd travel rest
    | .proceed =>
      if travelReject travel taskStart e then some "이동 시간 부족"
      else fixedScan rules taskStart taskEnd travel rest

/-- Scheduler._check_fixed_time_fit: parse the fixed start (format error on
failure), reject overtime for a non-overtime technician, then scan the
existing same-date assignments; on success the score is the travel time. -/
def checkFixedTimeFit (rules : SystemRules) (ws : TechnicianWorkingState) (job : Job)
    (travel : ℚ) (existing : List Assignment) : FitResult :=
  match parseTime? job.fixed_start_time with
  | none => .nofit "시간 형식 오류"
  | some taskStart =>
    let taskEnd := taskStart + job.duration_min + rules.default_buffer_min
    if taskEnd > rules.workEndMinutes && !ws.technician.overtime_allowed then
      .nofit "OVERTIME_NOT_ALLOWED"
    else
      match fixedScan rules taskStart taskEnd travel existing with
      | some r => .nofit r
      | none => .fits travel

/-- Slot type after the `job.slot_type or "ALLDAY"` fallback (Python `or`
also replaces the falsy empty string). -/
def resolvedSlotType (job : Job) : String :=
  match job.slot_type with
  | none => "ALLDAY"
  | some s => if s = "" then "ALLDAY" else s

/-- Slot width and latest end bound `(slot_duration, max_end_minutes)` for a
resolved slot type, exactly as computed in `_check_undefined_time_fit`. -/
def slotBounds (rules : SystemRules) (slotType : String) : Int × Int :=
  if slotType = "MORNING" then (12 * 60 - rules.workStartMinutes, 12 * 60)
  else if slotType = "AFTERNOON" then (rules.workEndMinutes - 12 * 60, rules.workEndMinutes)
  else (rules.workEndMinutes - rules.workStartMinutes, rules.workEndMinutes)

/-- Scheduler._check_undefined_time_fit: slot-width check, then the overtime
check on the latest possible end; existing assignments are received but never
inspected in this branch. -/
def checkUndefinedTimeFit (rules : SystemRules) (job : Job) (travel : ℚ)
    (_existing : List Assignment) (technician : Technician) : FitResult :=
  let total_duration := job.duration_min + rules.default_buffer_min
  let sb := slotBounds rules (resolvedSlotType job)
  if total_duration > sb.1 then .nofit "슬롯 크기 초과"
  else
    let latest_possible_start := sb.2 - total_duration
    let latest_possible_end := latest_possible_start + total_duration
    if latest_possible_end > rules.workEndMinutes && !technician.overtime_allowed then
      .nofit "OVERTIME_NOT_ALLOWED"
    else .fits travel

/-- Scheduler._check_time_fit: dispatch on `job.is_time_fixed() and
job.fixed_start_time`. -/
def checkTimeFit (rules : SystemRules) (ws : TechnicianWorkingState) (job : Job)
    (travel : ℚ) : FitResult :=
  let existing := ws.get_assignments_for_date job.date
  if job.is_time_fixed && job.fixed_start_time.isSome then
    checkFixedTimeFit rules ws job travel existing
  else
    checkUndefinedTimeFit rules job travel existing ws.technician

/-- Scheduler._create_assignment: fixed-time jobs get status "assigned" with
estimated start/end (the end computation's `try` only fails if the start
string is malformed, in which case the end stays `None`); other jobs get
status "time_undefined" and no times. -/
def createAssignment (rules : SystemRules) (job : Job) (ws : TechnicianWorkingState)
    (travel : ℚ) : Assignment :=
  if job.is_time_fixed && job.fixed_start_time.isSome then
    match parseTime? job.fixed_start_time with
    | some start_minutes =>
      { job := job, technician := ws.technician,
        estimated_start_time := job.fixed_start_time,
        estimated_end_time :=
          some (minutesToTime (start_minutes + job.duration_min + rules.default_buffer_min)),
        travel_time_minutes := travel, status := "assigned", memo := "" }
    | none =>
      { job := job, technician := ws.technician,
        estimated_start_time := job.fixed_start_time,
        estimated_end_time := none, travel_time_minutes := travel,
        status := "assigned", memo := "" }
  else
    { job := job, technician := ws.technician, estimated_start_time := none,
      estimated_end_time := none, travel_time_minutes := travel,
      status := "time_undefined", memo := "" }

/-- Scheduler._update_working_state: append the assignment under its date,
move the technician to the job's address, and advance the last-work fields
only when the assignment has an estimated end time. -/
def updateWorkingState (ws : TechnicianWorkingState) (assignment : Assignment) :
    TechnicianWorkingState :=
  let ws1 := ws.add_assignment assignment
  let ws2 := { ws1 with current_address := assignment.job.address }
  if assignment.estimated_end_time.isSome then
    { ws2 with last_work_end_time := assignment.estimated_end_time,
               last_work_date := some assignment.job.date }
  else ws2

/-- Accumulator of the candidate-scoring loop in `_assign_single_job`:
`best` is `(index into working_states, state, best_score, best_travel_time)`
(absent while `best_score` is still `float('inf')`), and `job` is the job
object, whose `error_reason` the loop mutates on the first rejection. -/
structure LoopAcc where
  best : Option (Nat × TechnicianWorkingState × ℚ × ℚ)
  job : Job

/-- One iteration of the scoring loop: compute the travel time from the
candidate's current location, run the fit check, keep the candidate on a
strictly better score, and otherwise record the first rejection reason on the
job. -/
def scoreStep (travel : String → String → ℚ) (rules : SystemRules)
    (acc : LoopAcc) (cand : Nat × TechnicianWorkingState) : LoopAcc :=
  let travel_time := travel cand.2.current_address acc.job.address
  match checkTimeFit rules cand.2 acc.job travel_time with
  | .fits score =>
    let better :=
      match acc.best with
      | none => true
      | some b => score < b.2.2.1
    if better then { acc with best := some (cand.1, cand.2, score, travel_time) } else acc
  | .nofit reason =>
    if optStrTruthy acc.job.error_reason then acc
    else { acc with job := { acc.job with error_reason := some reason } }

/-- Scheduler._assign_single_job.  The working states are carried as the
insertion-ordered list of the scheduler's dict values, paired with their
indices so that the winner's slot can be updated in place.  Returns the
updated states, the produced assignment (`none` encodes the day-cap deferral)
and the job object as mutated by the pass. -/
def assignSingleJob (travel : String → String → ℚ) (rules : SystemRules)
    (states : List TechnicianWorkingState) (job : Job) :
    List TechnicianWorkingState × Option Assignment × Job :=
  let avail := states.enum.filter
    (fun p => p.2.technician.can_handle_service job.service_type)
  if avail.isEmpty then
    let r := createFailedAssignment job "서비스를 처리할 수 있는 기사가 없음"
    (states, some r.1, r.2)
  else
    let assignable := avail.filter
      (fun p => p.2.can_assign_date job.date rules.max_preassign_days)
    if assignable.isEmpty then (states, none, job)
    else
      let acc := assignable.foldl (scoreStep travel rules) ⟨none, job⟩
      match acc.best with
      | none =>
        let reason :=
          if optStrTruthy acc.job.error_reason then acc.job.error_reason.getD ""
          else "시간상 배정 불가능"
        let r := createFailedAssignment acc.job reason
        (states, some r.1, r.2)
      | some (i, ws, _score, best_travel) =>
        let a := createAssignment rules acc.job ws best_travel
        (states.set i (updateWorkingState ws a), some a, acc.job)

/-- Result of `Scheduler.assign_jobs` together with the final working states
(kept in the scheduler object in the source). -/
structure BatchResult where
  assigned : List Assignment
  failed : List Assignment
  deferred : List Assignment
  states : List TechnicianWorkingState
deriving DecidableEq, Repr

/-- Scheduler.assign_jobs: process jobs in input order; a job already
carrying a truthy `error_reason` goes straight to the failed list; a `None`
result from `_assign_single_job` is wrapped in a failed-style assignment with
reason "MAX_PREASSIGN_DAYS_EXCEEDED" and appended to the deferred list; a
failed-status result goes to the failed list, anything else to the assigned
list. -/
def assignJobs (travel : String → String → ℚ) (rules : SystemRules)
    (states : List TechnicianWorkingState) : List Job → BatchResult
  | [] => ⟨[], [], [], states⟩
  | job :: rest =>
    if optStrTruthy job.error_reason then
      let fa := (createFailedAssignment job (job.error_reason.getD "")).1
      let r := assignJobs travel rules states rest
      { r with failed := fa :: r.failed }
    else
      let s := assignSingleJob travel rules states job
      let r := assignJobs travel rules s.1 rest
      match s.2.1 with
      | none =>
        let da := (createFailedAssignment s.2.2 "MAX_PREASSIGN_DAYS_EXCEEDED").1
        { r with deferred := da :: r.deferred }
      | some a =>
        if a.status = "failed" then { r with failed := a :: r.failed }
        else { r with assigned := a :: r.assigned }

/-- Working state built by `Scheduler.__init__` for a technician without a
persisted `TechnicianState` snapshot: start at the home address with no
assignments. -/
def initWorkingState (t : Technician) : TechnicianWorkingState :=
  { technician := t, current_address := t.home_address, assignments_by_date := [],
    last_work_end_time := none, last_work_date := none }

/-- Modelled from the spec: the `Worker` dataclass imported by
`fallback_handler.py` is not in `src/models.py`; per §3 of the spec and the
fields read by the handler it carries a home address and an overtime flag. -/
structure Worker where
  home_address : String
  overtime_enabled : Bool
deriving DecidableEq, Repr

/-- Modelled from the spec: the `WorkerState` dataclass imported by
`fallback_handler.py` is not in `src/models.py`; per §3 and the handler's
usage it pairs a worker with an optional last known location. -/
structure WorkerState where
  worker : Worker
  last_location : Option String := none
deriving DecidableEq, Repr

/-- Modelled from the spec: the `Task` dataclass imported by
`fallback_handler.py` is not in `src/models.py`; its fields are exactly those
the fallback resolver reads and writes (§3, §4.1 of the spec). -/
structure Task where
  service_type : String
  duration_minutes : Option Int := none
  current_location : Option String := none
  fixed_start_time : Option String := none
  slot_type : Option String := none
  overtime_allowed : Option Bool := none
  fallback_used : Bool := false
  fallback_details : List String := []
deriving DecidableEq, Repr

/-- DEFAULT_DURATION_BY_SERVICE from `config.py`. -/
def DEFAULT_DURATION_BY_SERVICE : String → Option Int := fun s =>
  if s = "입주청소" then some 180
  else if s = "이사청소" then some 180
  else if s = "에어컨청소" then some 120
  else if s = "청소청소" then some 150
  else none

/-- FallbackHandler.apply_fallbacks from `fallback_handler.py`, translated
step by step: terminal failures for a blank service type or an unknown-service
missing duration; defaults for duration, start location, slot type and
overtime intent; finally `fallback_used`/`fallback_details` are overwritten
with what this run accumulated. -/
def applyFallbacks (task : Task) (worker_state : Option WorkerState) : Task × Bool :=
  if strBlank task.service_type then
    ({ task with fallback_used := true, fallback_details := ["service_type_missing"] }, false)
  else
    let durMissing :=
      match task.duration_minutes with
      | none => true
      | some d => decide (d ≤ 0)
    let default_duration :=
      (DEFAULT_DURATION_BY_SERVICE task.service_type).filter (fun d => d != 0)
    if durMissing && default_duration.isNone then
      ({ task with fallback_used := true, fallback_details := ["duration_missing"] }, false)
    else
      let s2 : Task × Bool × List String :=
        if durMissing then
          ({ task with duration_minutes := default_duration }, true,
           ["duration_minutes: default_duration"])
        else (task, false, [])
      let s3 : Task × Bool × List String :=
        if optStrBlank s2.1.current_location then
          match worker_state with
          | some w =>
            if optStrTruthy w.last_location then
              ({ s2.1 with current_location := w.last_location }, true,
               ["current_location: last_location"])
            else
              ({ s2.1 with current_location := some w.worker.home_address }, true,
               ["current_location: home_address"])
          | none => ({ s2.1 with current_location := some "" }, false, [])
        else (s2.1, false, [])
      let s4 : Task :=
        match s3.1.fixed_start_time with
        | none => { s3.1 with fixed_start_time := none }
        | some s => if s = "" then { s3.1 with fixed_start_time := none } else s3.1
      let s5 : Task × Bool × List String :=
        if optStrBlank s4.slot_type then
          ({ s4 with slot_type := some "ALLDAY" }, true, ["slot_type: ALLDAY"])
        else (s4, false, [])
      let s6 : Task × Bool × List String :=
        match s5.1.overtime_allowed with
        | none =>
          match worker_state with
          | some w =>
            ({ s5.1 with overtime_allowed := some w.worker.overtime_enabled }, true,
             ["overtime_allowed: worker.overtime_enabled (" ++
              (if w.worker.overtime_enabled then "True" else "False") ++ ")"])
          | none =>
            ({ s5.1 with overtime_allowed := some false }, true, ["overtime_allowed: false"])
        | some _ => (s5.1, false, [])
      let fallback_used := s2.2.1 || s3.2.1 || s5.2.1 || s6.2.1
      let fallback_details := s2.2.2 ++ s3.2.2 ++ s5.2.2 ++ s6.2.2
      ({ s6.1 with fallback_used := fallback_used, fallback_details := fallback_details }, true)

/-! Concrete values used to instantiate the theorems below: a one-technician
roster, default system rules (with a day cap of 1 where noted) and a handful
of jobs and pre-existing assignments. -/

/-- Example technician: capability "c", overtime not allowed. -/
def exTech : Technician :=
  { technician_id := "T1", home_address := "H", service_types := ["c"],
    overtime_allowed := false }

/-- Example technician with overtime allowed. -/
def exTechOT : Technician :=
  { technician_id := "T2", home_address := "H2", service_types := ["c"],
    overtime_allowed := true }

/-- Example rules: 09:00 to 18:00, day cap 1, buffer 30. -/
def exRules : SystemRules :=
  { work_start_hour := 9, work_start_min := 0, work_end_hour := 18, work_end_min := 0,
    max_preassign_days := 1, default_buffer_min := 30 }

/-- Travel-time oracle that reports zero minutes everywhere. -/
def exTravel0 : String → String → ℚ := fun _ _ => 0

/-- Flexible job J1 on date 1. -/
def exJobD1 : Job :=
  { job_id := "J1", service_type := "c", address := "A1", date := 1, duration_min := 60 }

/-- Flexible job J2 on date 2. -/
def exJobD2 : Job :=
  { job_id := "J2", service_type := "c", address := "A2", date := 2, duration_min := 60 }

/-- Flexible job J3 on date 1 (competes with J1 for the only technician). -/
def exJobD3 : Job :=
  { job_id := "J3", service_type := "c", address := "A3", date := 1, duration_min := 60 }

/-- Job of the pre-existing fixed assignment at 10:00, duration 60. -/
def exFixed10Job : Job :=
  { job_id := "E1", service_type := "c", address := "B", date := 1, duration_min := 60,
    time_fixed := some true, fixed_start_time := some (.valid 10 0) }

/-- Pre-existing fixed assignment occupying [600, 690) with estimated end
11:30. -/
def exFixed10 : Assignment :=
  { job := exFixed10Job, technician := exTech, estimated_start_time := some (.valid 10 0),
    estimated_end_time := some (.valid 11 30), status := "assigned" }

/-- Fixed job at 08:30, duration 60: its interval [510, 600) touches the
existing [600, 690) interval exactly at the endpoint 600. -/
def exJobTouch : Job :=
  { job_id := "JT", service_type := "c", address := "C", date := 1, duration_min := 60,
    time_fixed := some true, fixed_start_time := some (.valid 8 30) }

/-- Working state of the example technician after the 10:00 job. -/
def exWsB : TechnicianWorkingState :=
  { technician := exTech, current_address := "B", assignments_by_date := [(1, [exFixed10])] }

/-- Job of the earlier fixed assignment at 08:00, duration 60. -/
def exFixed8Job : Job :=
  { job_id := "E0", service_type := "c", address := "B0", date := 1, duration_min := 60,
    time_fixed := some true, fixed_start_time := some (.valid 8 0) }

/-- Earlier fixed assignment occupying [480, 570) with estimated end 09:30. -/
def exFixed8 : Assignment :=
  { job := exFixed8Job, technician := exTech, estimated_start_time := some (.valid 8 0),
    estimated_end_time := some (.valid 9 30), status := "assigned" }

/-- Job of the later flexible assignment. -/
def exFlexJob : Job :=
  { job_id := "EF", service_type := "c", address := "BF", date := 1, duration_min := 60 }

/-- Flexible assignment committed last (it produced the technician's current
location) with no estimated end time. -/
def exFlex : Assignment :=
  { job := exFlexJob, technician := exTech, status := "time_undefined" }

/-- Fixed job at 10:00 used against the [exFixed8, exFlex] history. -/
def exJob10 : Job :=
  { job_id := "J10", service_type := "c", address := "C", date := 1, duration_min := 60,
    time_fixed := some true, fixed_start_time := some (.valid 10 0) }

/-- Fixed job at 17:00, duration 60: its computed end 18:30 exceeds the 18:00
work end. -/
def exJobLate : Job :=
  { job_id := "JL", service_type := "c", address := "C", date := 1, duration_min := 60,
    time_fixed := some true, fixed_start_time := some (.valid 17 0) }

/-- Flexible AFTERNOON job with duration 400: span 430 exceeds the
afternoon-slot width 360. -/
def exJobAfternoon : Job :=
  { job_id := "JA", service_type := "c", address := "C", date := 1, duration_min := 400,
    slot_type := some "AFTERNOON" }

/-- Fixed job at 10:30, duration 60: starts exactly when the 09:00 job's
interval ends. -/
def exJobAfter : Job :=
  { job_id := "JB", service_type := "c", address := "C", date := 1, duration_min := 60,
    time_fixed := some true, fixed_start_time := some (.valid 10 30) }

/-- Job of the fixed assignment at 09:00, duration 60, ending (with buffer)
at 10:30. -/
def exFixed9Job : Job :=
  { job_id := "E9", service_type := "c", address := "B9", date := 1, duration_min := 60,
    time_fixed := some true, fixed_start_time := some (.valid 9 0) }

/-- Fixed assignment occupying [540, 630) with estimated end 10:30. -/
def exFixed9 : Assignment :=
  { job := exFixed9Job, technician := exTech, estimated_start_time := some (.valid 9 0),
    estimated_end_time := some (.valid 10 30), status := "assigned" }

/-- Task whose only missing field is the slot type; every other field is
present, so a first fallback run only applies the ALLDAY default. -/
def exTask8 : Task :=
  { service_type := "에어컨청소", duration_minutes := some 100,
    current_location := some "Seoul", fixed_start_time := some "10:00",
    overtime_allowed := some false }

/-- Assignment produced by committing the flexible job J1 to the example
technician with zero travel time. -/
def exCommitA : Assignment :=
  { job := exJobD1, technician := exTech, status := "time_undefined" }

/-! Helper lemmas. -/

theorem foldl_max_bounds (xs : List Int) (x : Int) :
    x ≤ xs.foldl max x ∧ ∀ k ∈ xs, k ≤ xs.foldl max x := by
  induction xs generalizing x with
  | nil => simp
  | cons y ys ih =>
    obtain ⟨h1, h2⟩ := ih (max x y)
    refine ⟨le_trans (le_max_left x y) h1, ?_⟩
    intro k hk
    rcases List.mem_cons.mp hk with rfl | hk
    · exact le_trans (le_max_right _ _) h1
    · exact h2 k hk

theorem foldl_max_mem (xs : List Int) (x : Int) :
    xs.foldl max x = x ∨ xs.foldl max x ∈ xs := by
  induction xs generalizing x with
  | nil => left; rfl
  | cons y ys ih =>
    simp only [List.foldl_cons]
    rcases ih (max x y) with h | h
    · rcases max_choice x y with hm | hm
      · left; rw [h, hm]
      · right; rw [h, hm]; exact List.mem_cons_self y ys
    · right; exact List.mem_cons_of_mem y h

theorem can_assign_core (keys : List Int) (d m : Int) :
    (if (keys.length : Int) < m then true
     else match listMax? keys with
          | some latest => decide (d > latest)
          | none => true) = true ↔
      ((keys.length : Int) < m ∨ ∀ k ∈ keys, k < d) := by
  by_cases hlen : (keys.length : Int) < m
  · simp [hlen]
  · simp only [hlen, if_false]
    cases keys with
    | nil => simp [listMax?]
    | cons x xs =>
      simp only [listMax?, decide_eq_true_eq, gt_iff_lt]
      constructor
      · intro h
        right
        intro k hk
        rcases List.mem_cons.mp hk with rfl | hk
        · exact lt_of_le_of_lt (foldl_max_bounds xs k).1 h
        · exact lt_of_le_of_lt ((foldl_max_bounds xs x).2 k hk) h
      · rintro (h | h)
        · exact h.elim
        · rcases foldl_max_mem xs x with he | he
          · rw [he]; exact h x (List.mem_cons_self x xs)
          · exact h _ (List.mem_cons_of_mem x he)

/-- C2 (amended): the day-cap check `can_assign_date` accepts a date exactly
when the technician has fewer than `max_preassign_days` distinct assigned
dates, or the date is strictly later than every already-assigned date.  It is
a filter on new dates, not a bound on the number of date keys. -/
theorem C2_day_cap_rule (ws : TechnicianWorkingState) (target_date max_days : Int) :
    ws.can_assign_date target_date max_days = true ↔
      ((ws.assignments_by_date.length : Int) < max_days ∨
        ∀ k ∈ ws.assignments_by_date.map Prod.fst, k < target_date) := by
  have h := can_assign_core (ws.assignments_by_date.map Prod.fst) target_date max_days
  rw [List.length_map] at h
  simp only [TechnicianWorkingState.can_assign_date, List.length_map]
  exact h

/-- C2 (counterexample): with a day cap of 1, a run that assigns jobs on two
different dates to the same technician leaves that technician with 2 distinct
date keys, exceeding `max_preassign_days`. -/
theorem C2_counterexample :
    exRules.max_preassign_days = 1 ∧
    ((assignJobs exTravel0 exRules [initWorkingState exTech] [exJobD1, exJobD2]).states.map
      (fun ws => ws.assignments_by_date.length)) = [2] := by
  decide

/-- C3 (counterexample): a job whose candidates are emptied by the day-cap
filter lands in the deferred list, but with `error_reason` set to
"MAX_PREASSIGN_DAYS_EXCEEDED" and a failed-status assignment, contradicting
the claim that no error reason is set on it. -/
theorem C3_counterexample :
    ((assignJobs exTravel0 exRules [initWorkingState exTech] [exJobD1, exJobD3]).deferred.map
      (fun a => (a.job.job_id, a.job.error_reason, a.status))) =
      [("J3", some "MAX_PREASSIGN_DAYS_EXCEEDED", "failed")] := by
  decide

/-- C8 (counterexample): on a task whose first fallback run only filled the
slot type, a second run resets `fallback_used` from `true` to `false` and
clears `fallback_details`, so re-running the resolver is not a no-op. -/
theorem C8_counterexample :
    (applyFallbacks exTask8 none).2 = true ∧
    (applyFallbacks exTask8 none).1.fallback_used = true ∧
    (applyFallbacks exTask8 none).1.fallback_details = ["slot_type: ALLDAY"] ∧
    (applyFallbacks (applyFallbacks exTask8 none).1 none).1.fallback_used = false ∧
    (applyFallbacks (applyFallbacks exTask8 none).1 none).1.fallback_details = [] := by
  decide

/-- C4 (counterexample): the fixed job [510, 600) touches the existing fixed
assignment's interval [600, 690) exactly at the endpoint 600, yet the fit
check rejects it (with the travel-buffer reason, since the existing
assignment's estimated end 690 plus travel 0 exceeds the start 510) instead
of accepting it as claimed. -/
theorem C4_counterexample :
    (parseTime? exJobTouch.fixed_start_time = some 510 ∧
     (510 : Int) + exJobTouch.duration_min + exRules.default_buffer_min = 600 ∧
     parseTime? exFixed10.job.fixed_start_time = some 600) ∧
    checkFixedTimeFit exRules exWsB exJobTouch 0 [exFixed10] = .nofit "이동 시간 부족" := by
  refine ⟨by decide, ?_⟩
  norm_num [checkFixedTimeFit, fixedScan, fixedScanOne, travelReject, parseTime?,
    TimeStr.minutes?, exJobTouch, exFixed10, exFixed10Job, exRules, exWsB, exTech,
    SystemRules.workEndMinutes, Job.is_time_fixed]

/-- C5 (counterexample): the assignment that produced the technician's
current location is the last-committed one, the flexible `exFlex`, which has
no estimated end time, so the claimed rejection condition fails; yet the fit
check still rejects with the travel-buffer reason, triggered by the earlier
assignment `exFixed8` (estimated end 570 plus travel 60 exceeds the start
600).  The rejection is therefore not applied only against the
location-producing assignment. -/
theorem C5_counterexample :
    ([exFixed8, exFlex].getLast? = some exFlex ∧ exFlex.estimated_end_time = none) ∧
    checkFixedTimeFit exRules exWsB exJob10 60 [exFixed8, exFlex] = .nofit "이동 시간 부족" := by
  refine ⟨by decide, ?_⟩
  norm_num [checkFixedTimeFit, fixedScan, fixedScanOne, travelReject, parseTime?,
    TimeStr.minutes?, exJob10, exFixed8, exFixed8Job, exFlex, exFlexJob, exRules, exWsB,
    exTech, SystemRules.workEndMinutes, Job.is_time_fixed]

/-- C6: a fixed-time job whose computed end (start + duration + buffer)
exceeds `work_end` is rejected with reason OVERTIME_NOT_ALLOWED for every
technician who does not allow overtime, and, with no same-date assignments,
fits with score equal to the travel time for a technician who does. -/
theorem C6_fixed_overtime (rules : SystemRules) (job : Job) (travel : ℚ) (h mnt : Int)
    (hf : job.time_fixed = some true)
    (hs : job.fixed_start_time = some (.valid h mnt))
    (hover : h * 60 + mnt + job.duration_min + rules.default_buffer_min >
      rules.workEndMinutes) :
    (∀ ws : TechnicianWorkingState, ws.technician.overtime_allowed = false →
      checkTimeFit rules ws job travel = .nofit "OVERTIME_NOT_ALLOWED") ∧
    (∀ ws : TechnicianWorkingState, ws.technician.overtime_allowed = true →
      ws.get_assignments_for_date job.date = [] →
      checkTimeFit rules ws job travel = .fits travel) := by
  constructor
  · intro ws hot
    simp [checkTimeFit, checkFixedTimeFit, Job.is_time_fixed, hf, hs, parseTime?,
      TimeStr.minutes?, hot, hover]
  · intro ws hot hemp
    simp [checkTimeFit, checkFixedTimeFit, Job.is_time_fixed, hf, hs, parseTime?,
      TimeStr.minutes?, hot, hemp, fixedScan]

/-- C6 (witness): concrete instance with a 17:00 job of duration 60 under an
18:00 work end: rejected for the non-overtime technician, fits with score 0
for the overtime technician. -/
theorem C6_witness :
    checkTimeFit exRules (initWorkingState exTech) exJobLate 0 =
      .nofit "OVERTIME_NOT_ALLOWED" ∧
    checkTimeFit exRules (initWorkingState exTechOT) exJobLate 0 = .fits 0 := by
  constructor
  · exact (C6_fixed_overtime exRules exJobLate 0 17 0 rfl rfl (by decide)).1 _ rfl
  · exact (C6_fixed_overtime exRules exJobLate 0 17 0 rfl rfl (by decide)).2 _ rfl rfl

/-- C7: a non-time-fixed job whose required span (duration + buffer) exceeds
the resolved slot's width is rejected with the slot-too-small reason for
every technician, regardless of travel time. -/
theorem C7_slot_too_small (rules : SystemRules) (job : Job) (travel : ℚ)
    (hnf : (job.is_time_fixed && job.fixed_start_time.isSome) = false)
    (hsmall : (slotBounds rules (resolvedSlotType job)).1 <
      job.duration_min + rules.default_buffer_min) :
    ∀ ws : TechnicianWorkingState,
      checkTimeFit rules ws job travel = .nofit "슬롯 크기 초과" := by
  intro ws
  simp [checkTimeFit, checkUndefinedTimeFit, hnf, hsmall]

/-- C7 (witness): the AFTERNOON job with duration 400 and buffer 30 (span 430
over slot width 360) fails for two different technicians and travel times. -/
theorem C7_witness :
    checkTimeFit exRules (initWorkingState exTech) exJobAfternoon 0 =
      .nofit "슬롯 크기 초과" ∧
    checkTimeFit exRules (initWorkingState exTechOT) exJobAfternoon 999 =
      .nofit "슬롯 크기 초과" :=
  ⟨C7_slot_too_small exRules exJobAfternoon 0 (by decide) (by decide) _,
   C7_slot_too_small exRules exJobAfternoon 999 (by decide) (by decide) _⟩

/-- C10: whenever `work_end` is at least 12:00, the flexible-slot fit check
can only fit (with the travel time as score) or reject as slot-too-small; in
particular it never returns OVERTIME_NOT_ALLOWED, for any job, technician or
existing assignments. -/
theorem C10_flexible_no_overtime (rules : SystemRules) (job : Job) (travel : ℚ)
    (existing : List Assignment) (technician : Technician)
    (hwe : 12 * 60 ≤ rules.workEndMinutes) :
    checkUndefinedTimeFit rules job travel existing technician = .fits travel ∨
    checkUndefinedTimeFit rules job travel existing technician =
      .nofit "슬롯 크기 초과" := by
  unfold checkUndefinedTimeFit
  set sb := slotBounds rules (resolvedSlotType job) with hsb
  by_cases hsmall : job.duration_min + rules.default_buffer_min > sb.1
  · right; simp [hsmall]
  · left
    have hle : sb.2 ≤ rules.workEndMinutes := by
      rw [hsb]
      unfold slotBounds
      split_ifs <;> dsimp only <;> omega
    have hnot : ¬(sb.2 - (job.duration_min + rules.default_buffer_min) +
        (job.duration_min + rules.default_buffer_min) > rules.workEndMinutes) := by
      have hend : sb.2 - (job.duration_min + rules.default_buffer_min) +
          (job.duration_min + rules.default_buffer_min) = sb.2 := by ring
      rw [hend]
      exact not_lt.mpr hle
    simp only [hsmall, if_false]
    simp only [gt_iff_lt, sub_add_cancel]
    have hnlt : ¬rules.workEndMinutes < sb.2 := not_lt.mpr hle
    simp [hnlt]

/-- C8 (amended): re-running apply_fallbacks on an already-fallback-completed
task (all fields present) applies no new defaults and leaves every data field
unchanged, and appends nothing to `fallback_details`; however it does not
keep the previously recorded bookkeeping: `fallback_used` is overwritten with
`false` and `fallback_details` with `[]`. -/
theorem C8_rerun (task : Task) (worker_state : Option WorkerState)
    (hsvc : strBlank task.service_type = false)
    (hdur : ∃ d, task.duration_minutes = some d ∧ 0 < d)
    (hloc : optStrBlank task.current_location = false)
    (hfst : task.fixed_start_time = none ∨
      ∃ s, task.fixed_start_time = some s ∧ s ≠ "")
    (hslot : optStrBlank task.slot_type = false)
    (hot : task.overtime_allowed.isSome = true) :
    applyFallbacks task worker_state =
      ({ task with fallback_used := false, fallback_details := [] }, true) := by
  obtain ⟨d, hd, hdpos⟩ := hdur
  obtain ⟨b, hb⟩ := Option.isSome_iff_exists.mp hot
  have hdm : ¬d ≤ 0 := not_le.mpr hdpos
  rcases hfst with hn | ⟨s, hsx, hne⟩
  · simp [applyFallbacks, hsvc, hd, hdm, hloc, hslot, hb, hn]
  · simp [applyFallbacks, hsvc, hd, hdm, hloc, hslot, hb, hsx, hne]

/-- C8 (witness): concrete re-run on the completed version of the example
task, showing the data fields unchanged and the bookkeeping reset. -/
theorem C8_witness :
    applyFallbacks (applyFallbacks exTask8 none).1 none =
      ({ (applyFallbacks exTask8 none).1 with
          fallback_used := false, fallback_details := [] }, true) :=
  C8_rerun _ none (by decide) ⟨100, by decide, by decide⟩ (by decide)
    (Or.inr ⟨"10:00", by decide, by decide⟩) (by decide) (by decide)

/-- C3 (amended): when the capability-eligible candidate set of a job is
non-empty but the day-cap filter empties it, assign_jobs routes the job to
the deferred list (not the failed list) and leaves the working states
untouched; however, contrary to the original claim, the pass does create a
failed-status assignment for it, setting `error_reason` (and the memo) to
"MAX_PREASSIGN_DAYS_EXCEEDED". -/
theorem C3_deferred (travel : String → String → ℚ) (rules : SystemRules)
    (states : List TechnicianWorkingState) (job : Job) (rest : List Job)
    (herr : optStrTruthy job.error_reason = false)
    (havail : (states.enum.filter
      (fun p => p.2.technician.can_handle_service job.service_type)).isEmpty = false)
    (hcap : ((states.enum.filter
        (fun p => p.2.technician.can_handle_service job.service_type)).filter
      (fun p => p.2.can_assign_date job.date rules.max_preassign_days)).isEmpty = true) :
    (assignJobs travel rules states (job :: rest)).assigned =
      (assignJobs travel rules states rest).assigned ∧
    (assignJobs travel rules states (job :: rest)).failed =
      (assignJobs travel rules states rest).failed ∧
    (assignJobs travel rules states (job :: rest)).states =
      (assignJobs travel rules states rest).states ∧
    ∃ a, (assignJobs travel rules states (job :: rest)).deferred =
        a :: (assignJobs travel rules states rest).deferred ∧
      a.status = "failed" ∧
      a.job.error_reason = some "MAX_PREASSIGN_DAYS_EXCEEDED" ∧
      a.job.job_id = job.job_id ∧
      a.memo = "MAX_PREASSIGN_DAYS_EXCEEDED" := by
  have hs : assignSingleJob travel rules states job = (states, none, job) := by
    simp only [List.filter_filter] at hcap
    simp [assignSingleJob, havail, hcap, List.filter_filter]
  refine ⟨?_, ?_, ?_, ⟨(createFailedAssignment job "MAX_PREASSIGN_DAYS_EXCEEDED").1,
    ?_, rfl, rfl, rfl, rfl⟩⟩ <;>
    simp [assignJobs, herr, hs, createFailedAssignment]

/-- C3 (witness): the technician is capable but already holds an assignment
on the job's date under a day cap of 1, so the job is deferred with the
MAX_PREASSIGN_DAYS_EXCEEDED reason recorded on it. -/
theorem C3_witness :
    (assignJobs exTravel0 exRules [exWsB] [exJobD3]).assigned =
      (assignJobs exTravel0 exRules [exWsB] []).assigned ∧
    (assignJobs exTravel0 exRules [exWsB] [exJobD3]).failed =
      (assignJobs exTravel0 exRules [exWsB] []).failed ∧
    (assignJobs exTravel0 exRules [exWsB] [exJobD3]).states =
      (assignJobs exTravel0 exRules [exWsB] []).states ∧
    ∃ a, (assignJobs exTravel0 exRules [exWsB] [exJobD3]).deferred =
        a :: (assignJobs exTravel0 exRules [exWsB] []).deferred ∧
      a.status = "failed" ∧
      a.job.error_reason = some "MAX_PREASSIGN_DAYS_EXCEEDED" ∧
      a.job.job_id = exJobD3.job_id ∧
      a.memo = "MAX_PREASSIGN_DAYS_EXCEEDED" :=
  C3_deferred exTravel0 exRules [exWsB] exJobD3 [] (by decide) (by decide) (by decide)

theorem fixedScanOne_reject_of_overlap (rules : SystemRules) (taskStart taskEnd : Int)
    (e : Assignment) (es : Int)
    (hf : (e.job.is_time_fixed && e.job.fixed_start_time.isSome) = true)
    (hes : parseTime? e.job.fixed_start_time = some es)
    (hover : ¬(taskEnd ≤ es ∨
      taskStart ≥ es + e.job.duration_min + rules.default_buffer_min)) :
    fixedScanOne rules taskStart taskEnd e = .reject "시간 충돌" := by
  simp [fixedScanOne, hf, hes, hover]

theorem fixedScanOne_reject_reason (rules : SystemRules) (taskStart taskEnd : Int)
    (e : Assignment) (r : String)
    (hr : fixedScanOne rules taskStart taskEnd e = .reject r) : r = "시간 충돌" := by
  unfold fixedScanOne at hr
  by_cases hf : (e.job.is_time_fixed && e.job.fixed_start_time.isSome) = true
  · rw [if_pos hf] at hr
    cases hp : parseTime? e.job.fixed_start_time with
    | none => rw [hp] at hr; cases hr
    | some es =>
      rw [hp] at hr
      dsimp only at hr
      by_cases hov : ¬(taskEnd ≤ es ∨
          taskStart ≥ es + e.job.duration_min + rules.default_buffer_min)
      · rw [if_pos hov] at hr; cases hr; rfl
      · rw [if_neg hov] at hr; cases hr
  · rw [if_neg hf] at hr; cases hr

theorem fixedScan_none_no_overlap (rules : SystemRules) (taskStart taskEnd : Int)
    (travel : ℚ) (l : List Assignment)
    (hnone : fixedScan rules taskStart taskEnd travel l = none) :
    ∀ e ∈ l, ∀ es, (e.job.is_time_fixed && e.job.fixed_start_time.isSome) = true →
      parseTime? e.job.fixed_start_time = some es →
      (taskEnd ≤ es ∨ taskStart ≥ es + e.job.duration_min + rules.default_buffer_min) := by
  induction l with
  | nil => intro e he; simp at he
  | cons a rest ih =>
    intro e he es hf hes
    unfold fixedScan at hnone
    rcases List.mem_cons.mp he with rfl | he2
    · by_contra hov
      rw [fixedScanOne_reject_of_overlap rules taskStart taskEnd e es hf hes hov] at hnone
      cases hnone
    · cases hso : fixedScanOne rules taskStart taskEnd a with
      | reject r => rw [hso] at hnone; cases hnone
      | next => rw [hso] at hnone; exact ih hnone e he2 es hf hes
      | proceed =>
        rw [hso] at hnone
        by_cases htr : travelReject travel taskStart a = true
        · rw [if_pos htr] at hnone; cases hnone
        · rw [if_neg htr] at hnone; exact ih hnone e he2 es hf hes

theorem fixedScan_travel_sound (rules : SystemRules) (taskStart taskEnd : Int)
    (travel : ℚ) (l : List Assignment)
    (hsome : fixedScan rules taskStart taskEnd travel l = some "이동 시간 부족") :
    ∃ e ∈ l, ∃ em, parseTime? e.estimated_end_time = some em ∧
      (em : ℚ) + travel > (taskStart : ℚ) := by
  induction l with
  | nil => cases hsome
  | cons a rest ih =>
    unfold fixedScan at hsome
    cases hso : fixedScanOne rules taskStart taskEnd a with
    | reject r =>
      rw [hso] at hsome
      have hr : r = "시간 충돌" := fixedScanOne_reject_reason rules taskStart taskEnd a r hso
      rw [hr] at hsome
      simp at hsome
    | next =>
      rw [hso] at hsome
      obtain ⟨e, he, hrest⟩ := ih hsome
      exact ⟨e, List.mem_cons_of_mem a he, hrest⟩
    | proceed =>
      rw [hso] at hsome
      by_cases htr : travelReject travel taskStart a = true
      · unfold travelReject at htr
        cases hem : parseTime? a.estimated_end_time with
        | none => rw [hem] at htr; dsimp only at htr; cases htr
        | some em =>
          rw [hem] at htr
          dsimp only at htr
          refine ⟨a, List.mem_cons_self a rest, em, hem, ?_⟩
          exact of_decide_eq_true htr
      · rw [if_neg htr] at hsome
        obtain ⟨e, he, hrest⟩ := ih hsome
        exact ⟨e, List.mem_cons_of_mem a he, hrest⟩

theorem fixedScan_travel_forces (rules : SystemRules) (taskStart taskEnd : Int)
    (travel : ℚ) (l : List Assignment) (e : Assignment) (em : Int)
    (he : e ∈ l)
    (hskip : (e.job.is_time_fixed && e.job.fixed_start_time.isSome) = true →
      parseTime? e.job.fixed_start_time ≠ none)
    (hem : parseTime? e.estimated_end_time = some em)
    (hgt : (em : ℚ) + travel > (taskStart : ℚ)) :
    ∃ r, fixedScan rules taskStart taskEnd travel l = some r := by
  induction l with
  | nil => simp at he
  | cons a rest ih =>
    unfold fixedScan
    cases hso : fixedScanOne rules taskStart taskEnd a with
    | reject r => exact ⟨r, rfl⟩
    | next =>
      rcases List.mem_cons.mp he with rfl | he2
      · exfalso
        unfold fixedScanOne at hso
        by_cases hf : (e.job.is_time_fixed && e.job.fixed_start_time.isSome) = true
        · rw [if_pos hf] at hso
          cases hp : parseTime? e.job.fixed_start_time with
          | none => exact hskip hf hp
          | some es =>
            rw [hp] at hso
            dsimp only at hso
            by_cases hov : ¬(taskEnd ≤ es ∨
                taskStart ≥ es + e.job.duration_min + rules.default_buffer_min)
            · rw [if_pos hov] at hso; cases hso
            · rw [if_neg hov] at hso; cases hso
        · rw [if_neg hf] at hso; cases hso
      · exact ih he2
    | proceed =>
      by_cases htr : travelReject travel taskStart a = true
      · rw [if_pos htr]; exact ⟨"이동 시간 부족", rfl⟩
      · rw [if_neg htr]
        rcases List.mem_cons.mp he with rfl | he2
        · exfalso
          apply htr
          unfold travelReject
          rw [hem]
          exact decide_eq_true hgt
        · exact ih he2

/-- C4 (amended): half-open interval overlap between a fixed-time job and an
existing fixed-time same-date assignment always makes the fit check return
not-fit (so two overlapping fixed-time assignments can never both be
committed), and touching intervals never trigger the time-conflict branch: a
job starting exactly at an existing assignment's interval end is accepted
when the travel check and the overtime check pass.  (A job that touches just
before an existing assignment, however, is still rejected by the
direction-agnostic travel-buffer check, as the counterexample shows.) -/
theorem C4_fixed_conflict :
    (∀ (rules : SystemRules) (ws : TechnicianWorkingState) (job : Job) (travel : ℚ)
      (existing : List Assignment) (taskStart es : Int) (e : Assignment),
      parseTime? job.fixed_start_time = some taskStart →
      e ∈ existing →
      (e.job.is_time_fixed && e.job.fixed_start_time.isSome) = true →
      parseTime? e.job.fixed_start_time = some es →
      ¬(taskStart + job.duration_min + rules.default_buffer_min ≤ es ∨
        taskStart ≥ es + e.job.duration_min + rules.default_buffer_min) →
      ∃ r, checkFixedTimeFit rules ws job travel existing = .nofit r) ∧
    (∀ (rules : SystemRules) (ws : TechnicianWorkingState) (job : Job) (travel : ℚ)
      (e : Assignment) (taskStart es em : Int),
      parseTime? job.fixed_start_time = some taskStart →
      (e.job.is_time_fixed && e.job.fixed_start_time.isSome) = true →
      parseTime? e.job.fixed_start_time = some es →
      taskStart = es + e.job.duration_min + rules.default_buffer_min →
      parseTime? e.estimated_end_time = some em →
      ¬((em : ℚ) + travel > (taskStart : ℚ)) →
      (taskStart + job.duration_min + rules.default_buffer_min ≤ rules.workEndMinutes ∨
        ws.technician.overtime_allowed = true) →
      checkFixedTimeFit rules ws job travel [e] = .fits travel) := by
  constructor
  · intro rules ws job travel existing taskStart es e hp he hf hes hov
    unfold checkFixedTimeFit
    rw [hp]
    dsimp only
    by_cases hot : (decide (taskStart + job.duration_min + rules.default_buffer_min >
        rules.workEndMinutes) && !ws.technician.overtime_allowed) = true
    · rw [if_pos hot]; exact ⟨"OVERTIME_NOT_ALLOWED", rfl⟩
    · rw [if_neg hot]
      cases hscan : fixedScan rules taskStart
          (taskStart + job.duration_min + rules.default_buffer_min) travel existing with
      | some r => exact ⟨r, rfl⟩
      | none =>
        exact absurd (fixedScan_none_no_overlap rules taskStart _ travel existing hscan
          e he es hf hes) hov
  · intro rules ws job travel e taskStart es em hp hf hes htouch hem htr hok
    unfold checkFixedTimeFit
    rw [hp]
    dsimp only
    have hotfalse : (decide (taskStart + job.duration_min + rules.default_buffer_min >
        rules.workEndMinutes) && !ws.technician.overtime_allowed) = false := by
      rcases hok with hle | hotrue
      · simp [not_lt.mpr hle]
      · simp [hotrue]
    rw [hotfalse]
    simp only [Bool.false_eq_true, if_false]
    have hso : fixedScanOne rules taskStart
        (taskStart + job.duration_min + rules.default_buffer_min) e = .proceed := by
      have hge : taskStart ≥ es + e.job.duration_min + rules.default_buffer_min :=
        le_of_eq htouch.symm
      simp [fixedScanOne, hf, hes, hge]
    have htrf : travelReject travel taskStart e = false := by
      unfold travelReject
      rw [hem]
      exact decide_eq_false htr
    simp [fixedScan, hso, htrf]

/-- C4 (witness): an overlapping fixed job (same 10:00 interval as the
existing assignment) is rejected, and a job starting exactly at the existing
09:00 assignment's interval end 10:30 with zero travel is accepted with score
equal to the travel time. -/
theorem C4_witness :
    (∃ r, checkFixedTimeFit exRules exWsB exJob10 0 [exFixed10] = .nofit r) ∧
    checkFixedTimeFit exRules exWsB exJobAfter 0 [exFixed9] = .fits 0 := by
  constructor
  · exact C4_fixed_conflict.1 exRules exWsB exJob10 0 [exFixed10] 600 600 exFixed10
      (by decide) (by decide) (by decide) (by decide) (by decide)
  · exact C4_fixed_conflict.2 exRules exWsB exJobAfter 0 exFixed9 630 540 630
      (by decide) (by decide) (by decide) (by decide) (by decide) (by norm_num) (by decide)

/-- C5 (amended): the insufficient-travel-buffer rejection is applied against
every existing same-date assignment that carries a parseable estimated end
time, not only the one that produced the technician's current location:
whenever the check rejects with the travel-buffer reason, some existing
assignment's estimated end plus the travel time exceeds the job's start, and
conversely any existing assignment with such an estimated end (that is not
skipped as a malformed fixed-time entry) forces the check to reject. -/
theorem C5_travel_scan :
    (∀ (rules : SystemRules) (ws : TechnicianWorkingState) (job : Job) (travel : ℚ)
      (existing : List Assignment),
      checkFixedTimeFit rules ws job travel existing = .nofit "이동 시간 부족" →
      ∃ taskStart, parseTime? job.fixed_start_time = some taskStart ∧
        ∃ e ∈ existing, ∃ em, parseTime? e.estimated_end_time = some em ∧
          (em : ℚ) + travel > (taskStart : ℚ)) ∧
    (∀ (rules : SystemRules) (ws : TechnicianWorkingState) (job : Job) (travel : ℚ)
      (existing : List Assignment) (taskStart : Int) (e : Assignment) (em : Int),
      parseTime? job.fixed_start_time = some taskStart →
      e ∈ existing →
      ((e.job.is_time_fixed && e.job.fixed_start_time.isSome) = true →
        parseTime? e.job.fixed_start_time ≠ none) →
      parseTime? e.estimated_end_time = some em →
      (em : ℚ) + travel > (taskStart : ℚ) →
      ∃ r, checkFixedTimeFit rules ws job travel existing = .nofit r) := by
  constructor
  · intro rules ws job travel existing hrej
    unfold checkFixedTimeFit at hrej
    cases hp : parseTime? job.fixed_start_time with
    | none =>
      rw [hp] at hrej
      dsimp only at hrej
      exact absurd (FitResult.nofit.inj hrej) (by decide)
    | some taskStart =>
      rw [hp] at hrej
      dsimp only at hrej
      refine ⟨taskStart, rfl, ?_⟩
      by_cases hot : (decide (taskStart + job.duration_min + rules.default_buffer_min >
          rules.workEndMinutes) && !ws.technician.overtime_allowed) = true
      · rw [if_pos hot] at hrej; simp at hrej
      · rw [if_neg hot] at hrej
        cases hscan : fixedScan rules taskStart
            (taskStart + job.duration_min + rules.default_buffer_min) travel existing with
        | none => rw [hscan] at hrej; cases hrej
        | some r =>
          rw [hscan] at hrej
          cases hrej
          exact fixedScan_travel_sound rules taskStart _ travel existing hscan
  · intro rules ws job travel existing taskStart e em hp he hskip hem hgt
    unfold checkFixedTimeFit
    rw [hp]
    dsimp only
    by_cases hot : (decide (taskStart + job.duration_min + rules.default_buffer_min >
        rules.workEndMinutes) && !ws.technician.overtime_allowed) = true
    · rw [if_pos hot]; exact ⟨"OVERTIME_NOT_ALLOWED", rfl⟩
    · rw [if_neg hot]
      obtain ⟨r, hr⟩ := fixedScan_travel_forces rules taskStart
        (taskStart + job.duration_min + rules.default_buffer_min) travel existing e em
        he hskip hem hgt
      rw [hr]
      exact ⟨r, rfl⟩

/-- C5 (witness): in the two-assignment history the rejection is forced by
the earlier assignment `exFixed8` (estimated end 570, travel 60, start 600),
which is not the location-producing one, and the soundness direction recovers
such an assignment from the rejection. -/
theorem C5_witness :
    (∃ taskStart, parseTime? exJob10.fixed_start_time = some taskStart ∧
      ∃ e ∈ [exFixed8, exFlex], ∃ em, parseTime? e.estimated_end_time = some em ∧
        (em : ℚ) + 60 > (taskStart : ℚ)) ∧
    (∃ r, checkFixedTimeFit exRules exWsB exJob10 60 [exFixed8, exFlex] = .nofit r) := by
  constructor
  · refine C5_travel_scan.1 exRules exWsB exJob10 60 [exFixed8, exFlex] ?_
    norm_num [checkFixedTimeFit, fixedScan, fixedScanOne, travelReject, parseTime?,
      TimeStr.minutes?, exJob10, exFixed8, exFixed8Job, exFlex, exFlexJob, exRules, exWsB,
      exTech, SystemRules.workEndMinutes, Job.is_time_fixed]
  · exact C5_travel_scan.2 exRules exWsB exJob10 60 [exFixed8, exFlex] 600 exFixed8 570
      (by decide) (by decide) (by decide) (by decide) (by norm_num)

theorem checkTimeFit_err_irrel (rules : SystemRules) (ws : TechnicianWorkingState)
    (j : Job) (e : Option String) (t : ℚ) :
    checkTimeFit rules ws { j with error_reason := e } t = checkTimeFit rules ws j t := rfl

theorem scoreStep_job_core (travel : String → String → ℚ) (rules : SystemRules)
    (acc : LoopAcc) (cand : Nat × TechnicianWorkingState) :
    (scoreStep travel rules acc cand).job =
      { acc.job with error_reason := (scoreStep travel rules acc cand).job.error_reason } := by
  unfold scoreStep
  dsimp only
  cases hcf : checkTimeFit rules cand.2 acc.job
      (travel cand.2.current_address acc.job.address) with
  | fits s => dsimp only; split_ifs <;> rfl
  | nofit r => dsimp only; split_ifs <;> rfl

theorem foldl_scoreStep_job (travel : String → String → ℚ) (rules : SystemRules)
    (l : List (Nat × TechnicianWorkingState)) (acc : LoopAcc) :
    (l.foldl (scoreStep travel rules) acc).job =
      { acc.job with
        error_reason := (l.foldl (scoreStep travel rules) acc).job.error_reason } := by
  induction l generalizing acc with
  | nil => rfl
  | cons c cs ih =>
    rw [List.foldl_cons]
    have h1 := ih (scoreStep travel rules acc c)
    have h2 := scoreStep_job_core travel rules acc c
    rw [h1, h2]

theorem foldl_scoreStep_best (travel : String → String → ℚ) (rules : SystemRules)
    (l : List (Nat × TechnicianWorkingState)) (acc : LoopAcc)
    (i : Nat) (ws : TechnicianWorkingState) (s t : ℚ)
    (h : (l.foldl (scoreStep travel rules) acc).best = some (i, ws, s, t)) :
    acc.best = some (i, ws, s, t) ∨
      ((i, ws) ∈ l ∧ t = travel ws.current_address acc.job.address ∧
        checkTimeFit rules ws acc.job t = .fits s) := by
  induction l generalizing acc with
  | nil => left; exact h
  | cons c cs ih =>
    obtain ⟨ci, cw⟩ := c
    rw [List.foldl_cons] at h
    rcases ih (scoreStep travel rules acc (ci, cw)) h with hacc | ⟨hmem, ht, hfit⟩
    · unfold scoreStep at hacc
      dsimp only at hacc
      cases hcf : checkTimeFit rules cw acc.job
          (travel cw.current_address acc.job.address) with
      | fits s0 =>
        rw [hcf] at hacc
        dsimp only at hacc
        split_ifs at hacc with hb
        · dsimp only at hacc
          simp only [Option.some.injEq, Prod.mk.injEq] at hacc
          obtain ⟨h1, h2, h3, h4⟩ := hacc
          subst h1; subst h2; subst h3; subst h4
          right
          exact ⟨List.mem_cons_self _ _, rfl, hcf⟩
        · left; exact hacc
      | nofit r =>
        rw [hcf] at hacc
        dsimp only at hacc
        split_ifs at hacc <;> [exact Or.inl hacc; exact Or.inl hacc]
    · right
      have haddr : (scoreStep travel rules acc (ci, cw)).job.address = acc.job.address := by
        rw [scoreStep_job_core]
      have hfit2 : checkTimeFit rules ws acc.job t = .fits s := by
        rw [← checkTimeFit_err_irrel rules ws acc.job
          ((scoreStep travel rules acc (ci, cw)).job.error_reason) t,
          ← scoreStep_job_core travel rules acc (ci, cw)]
        exact hfit
      refine ⟨List.mem_cons_of_mem _ hmem, ?_, hfit2⟩
      rw [ht, haddr]

theorem mem_enum_getElem (l : List TechnicianWorkingState) (i : Nat)
    (ws : TechnicianWorkingState) (h : (i, ws) ∈ l.enum) : l[i]? = some ws := by
  have := List.mk_mem_enum_iff_getElem?.mp h
  exact this

theorem add_assignment_lookup (l : List (Int × List Assignment)) (d : Int) (a : Assignment) :
    (match (if l.any (fun p => p.1 == d) then
        l.map (fun p => if p.1 == d then (p.1, p.2 ++ [a]) else p)
      else l ++ [(d, [a])]).find? (fun p => p.1 == d) with
     | some p => p.2
     | none => []) =
    (match l.find? (fun p => p.1 == d) with
     | some p => p.2
     | none => []) ++ [a] := by
  have hp : ((fun p : Int × List Assignment => p.1 == d) ∘
      (fun p => if p.1 == d then (p.1, p.2 ++ [a]) else p)) =
      (fun p : Int × List Assignment => p.1 == d) := by
    funext q
    by_cases h : (q.1 == d) = true <;> simp [Function.comp, h]
  by_cases hany : l.any (fun p => p.1 == d) = true
  · rw [if_pos hany, List.find?_map, hp]
    cases hf : l.find? (fun p => p.1 == d) with
    | none =>
      exfalso
      rw [List.any_eq_true] at hany
      obtain ⟨x, hx, hpx⟩ := hany
      rw [List.find?_eq_none] at hf
      exact hf x hx hpx
    | some q =>
      have hq : (q.1 == d) = true := by simpa using List.find?_some hf
      have heq : q.1 = d := by simpa using hq
      simp [hq, heq]
  · rw [if_neg hany, List.find?_append]
    have hfn : l.find? (fun p => p.1 == d) = none := by
      rw [List.find?_eq_none]
      intro x hx hpx
      exact hany (List.any_eq_true.mpr ⟨x, hx, hpx⟩)
    rw [hfn]
    simp [List.find?]

theorem add_assignment_lookup_ne (l : List (Int × List Assignment)) (d d' : Int)
    (a : Assignment) (hne : (d' == d) = false) :
    (match (if l.any (fun p => p.1 == d) then
        l.map (fun p => if p.1 == d then (p.1, p.2 ++ [a]) else p)
      else l ++ [(d, [a])]).find? (fun p => p.1 == d') with
     | some p => p.2
     | none => []) =
    (match l.find? (fun p => p.1 == d') with
     | some p => p.2
     | none => []) := by
  have hdne : ¬d' = d := beq_eq_false_iff_ne.mp hne
  have hp : ((fun p : Int × List Assignment => p.1 == d') ∘
      (fun p => if p.1 == d then (p.1, p.2 ++ [a]) else p)) =
      (fun p : Int × List Assignment => p.1 == d') := by
    funext q
    by_cases h : (q.1 == d) = true
    · have heq : q.1 = d := by simpa using h
      have hqd' : (q.1 == d') = false := by
        rw [beq_eq_false_iff_ne, heq]
        exact fun hcon => hdne hcon.symm
      simp [Function.comp, h, hqd']
    · simp [Function.comp, h]
  by_cases hany : l.any (fun p => p.1 == d) = true
  · rw [if_pos hany, List.find?_map, hp]
    cases hf : l.find? (fun p => p.1 == d') with
    | none => simp
    | some q =>
      have hq' : (q.1 == d') = true := by simpa using List.find?_some hf
      have hqd : (q.1 == d) = false := by
        have h1 : q.1 = d' := by simpa using hq'
        rw [beq_eq_false_iff_ne, h1]
        exact hdne
      have hne2 : ¬q.1 = d := by simpa using hqd
      simp [hqd, hne2]
  · rw [if_neg hany, List.find?_append]
    have hlast : [(d, [a])].find? (fun p => p.1 == d') = none := by
      have hdd : (d == d') = false := by
        rw [beq_eq_false_iff_ne]
        exact fun hcon => hdne hcon.symm
      simp [List.find?, hdd]
    rw [hlast]
    cases l.find? (fun p => p.1 == d') <;> simp

theorem updateWorkingState_technician (ws : TechnicianWorkingState) (a : Assignment) :
    (updateWorkingState ws a).technician = ws.technician := by
  unfold updateWorkingState
  dsimp only
  split_ifs <;> rfl

theorem updateWorkingState_address (ws : TechnicianWorkingState) (a : Assignment) :
    (updateWorkingState ws a).current_address = a.job.address := by
  unfold updateWorkingState
  dsimp only
  split_ifs <;> rfl

theorem updateWorkingState_abd (ws : TechnicianWorkingState) (a : Assignment) :
    (updateWorkingState ws a).assignments_by_date =
      (ws.add_assignment a).assignments_by_date := by
  unfold updateWorkingState
  dsimp only
  split_ifs <;> rfl

theorem updateWorkingState_last_some (ws : TechnicianWorkingState) (a : Assignment)
    (h : a.estimated_end_time.isSome = true) :
    (updateWorkingState ws a).last_work_end_time = a.estimated_end_time ∧
      (updateWorkingState ws a).last_work_date = some a.job.date := by
  unfold updateWorkingState
  dsimp only
  rw [if_pos h]
  exact ⟨rfl, rfl⟩

theorem updateWorkingState_last_none (ws : TechnicianWorkingState) (a : Assignment)
    (h : a.estimated_end_time.isSome = false) :
    (updateWorkingState ws a).last_work_end_time = ws.last_work_end_time ∧
      (updateWorkingState ws a).last_work_date = ws.last_work_date := by
  unfold updateWorkingState
  dsimp only
  rw [if_neg (by simp [h])]
  exact ⟨rfl, rfl⟩

theorem update_get_date (ws : TechnicianWorkingState) (a : Assignment) :
    (updateWorkingState ws a).get_assignments_for_date a.job.date =
      ws.get_assignments_for_date a.job.date ++ [a] := by
  unfold TechnicianWorkingState.get_assignments_for_date
  rw [updateWorkingState_abd]
  unfold TechnicianWorkingState.add_assignment
  dsimp only
  exact add_assignment_lookup ws.assignments_by_date a.job.date a

theorem update_get_date_ne (ws : TechnicianWorkingState) (a : Assignment) (d' : Int)
    (hne : d' ≠ a.job.date) :
    (updateWorkingState ws a).get_assignments_for_date d' =
      ws.get_assignments_for_date d' := by
  unfold TechnicianWorkingState.get_assignments_for_date
  rw [updateWorkingState_abd]
  unfold TechnicianWorkingState.add_assignment
  dsimp only
  exact add_assignment_lookup_ne ws.assignments_by_date a.job.date d' a
    (beq_eq_false_iff_ne.mpr hne)

theorem createAssignment_job (rules : SystemRules) (j : Job)
    (ws : TechnicianWorkingState) (t : ℚ) : (createAssignment rules j ws t).job = j := by
  unfold createAssignment
  split_ifs
  · cases hp : parseTime? j.fixed_start_time <;> rfl
  · rfl

theorem createAssignment_status_ne (rules : SystemRules) (j : Job)
    (ws : TechnicianWorkingState) (t : ℚ) :
    (createAssignment rules j ws t).status ≠ "failed" := by
  unfold createAssignment
  split_ifs
  · cases hp : parseTime? j.fixed_start_time <;> simp
  · simp

/-- C9: a non-failed result of `_assign_single_job` is a commit, and it
mutates exactly one working state, exactly as described: the assignment is
appended under the job's date (other dates untouched), the current location
becomes the job's address, the technician field is untouched, and the
last-work fields advance iff the job is processed as time-fixed
(`is_time_fixed() and fixed_start_time`); every other technician's working
state is unchanged. -/
theorem C9_commit_frame (travel : String → String → ℚ) (rules : SystemRules)
    (states : List TechnicianWorkingState) (job : Job)
    (out : List TechnicianWorkingState) (a : Assignment) (jobOut : Job)
    (h : assignSingleJob travel rules states job = (out, some a, jobOut))
    (hstat : a.status ≠ "failed") :
    ∃ i ws, states[i]? = some ws ∧
      out = states.set i (updateWorkingState ws a) ∧
      (∀ j, j ≠ i → out[j]? = states[j]?) ∧
      (updateWorkingState ws a).technician = ws.technician ∧
      (updateWorkingState ws a).current_address = job.address ∧
      (updateWorkingState ws a).get_assignments_for_date job.date =
        ws.get_assignments_for_date job.date ++ [a] ∧
      (∀ d, d ≠ job.date →
        (updateWorkingState ws a).get_assignments_for_date d =
          ws.get_assignments_for_date d) ∧
      a.job.job_id = job.job_id ∧ a.job.date = job.date ∧ a.job.address = job.address ∧
      (if (job.is_time_fixed && job.fixed_start_time.isSome) = true then
        a.estimated_end_time.isSome = true ∧
        (updateWorkingState ws a).last_work_end_time = a.estimated_end_time ∧
        (updateWorkingState ws a).last_work_date = some job.date
      else
        a.estimated_end_time = none ∧
        (updateWorkingState ws a).last_work_end_time = ws.last_work_end_time ∧
        (updateWorkingState ws a).last_work_date = ws.last_work_date) := by
  unfold assignSingleJob at h
  dsimp only at h
  by_cases hav : (states.enum.filter
      (fun p => p.2.technician.can_handle_service job.service_type)).isEmpty = true
  · rw [if_pos hav] at h
    exfalso
    apply hstat
    have ha : (createFailedAssignment job "서비스를 처리할 수 있는 기사가 없음").1 = a := by
      simpa using congrArg (fun x => x.2.1) h
    rw [← ha]
    rfl
  · rw [if_neg hav] at h
    by_cases hcap : ((states.enum.filter
        (fun p => p.2.technician.can_handle_service job.service_type)).filter
      (fun p => p.2.can_assign_date job.date rules.max_preassign_days)).isEmpty = true
    · rw [if_pos hcap] at h
      have := congrArg (fun x => x.2.1) h
      simp at this
    · rw [if_neg hcap] at h
      cases hbest : (List.foldl (scoreStep travel rules) ⟨none, job⟩
          ((states.enum.filter
            (fun p => p.2.technician.can_handle_service job.service_type)).filter
          (fun p => p.2.can_assign_date job.date rules.max_preassign_days))).best with
      | none =>
        rw [hbest] at h
        dsimp only at h
        exfalso
        apply hstat
        have ha : (createFailedAssignment (List.foldl (scoreStep travel rules) ⟨none, job⟩
            ((states.enum.filter
              (fun p => p.2.technician.can_handle_service job.service_type)).filter
            (fun p => p.2.can_assign_date job.date rules.max_preassign_days))).job
            (if optStrTruthy (List.foldl (scoreStep travel rules) ⟨none, job⟩
              ((states.enum.filter
                (fun p => p.2.technician.can_handle_service job.service_type)).filter
              (fun p => p.2.can_assign_date job.date rules.max_preassign_days))).job.error_reason
              = true then
              (List.foldl (scoreStep travel rules) ⟨none, job⟩
                ((states.enum.filter
                  (fun p => p.2.technician.can_handle_service job.service_type)).filter
                (fun p =>
                  p.2.can_assign_date job.date rules.max_preassign_days))).job.error_reason.getD ""
            else "시간상 배정 불가능")).1 = a := by
          simpa using congrArg (fun x => x.2.1) h
        rw [← ha]
        rfl
      | some b =>
        obtain ⟨i, ws, s, t⟩ := b
        rw [hbest] at h
        dsimp only at h
        rcases foldl_scoreStep_best travel rules _ ⟨none, job⟩ i ws s t hbest with
          hinit | ⟨hmem, ht, hfit⟩
        · cases hinit
        · have hmem2 : (i, ws) ∈ states.enum :=
            (List.mem_filter.mp ((List.mem_filter.mp hmem).1)).1
          have hget : states[i]? = some ws := mem_enum_getElem states i ws hmem2
          have hjob := foldl_scoreStep_job travel rules
            ((states.enum.filter
              (fun p => p.2.technician.can_handle_service job.service_type)).filter
            (fun p => p.2.can_assign_date job.date rules.max_preassign_days)) ⟨none, job⟩
          have ha : createAssignment rules (List.foldl (scoreStep travel rules) ⟨none, job⟩
              ((states.enum.filter
                (fun p => p.2.technician.can_handle_service job.service_type)).filter
              (fun p => p.2.can_assign_date job.date rules.max_preassign_days))).job ws t
              = a := by
            simpa using congrArg (fun x => x.2.1) h
          have hout : states.set i (updateWorkingState ws a) = out := by
            have h1 := congrArg (fun x => x.1) h
            dsimp only at h1
            rw [ha] at h1
            exact h1
          have hajob : a.job = { job with error_reason := a.job.error_reason } := by
            rw [← ha, createAssignment_job]
            exact hjob
          have hjid : a.job.job_id = job.job_id := by rw [hajob]
          have hjdate : a.job.date = job.date := by rw [hajob]
          have hjaddr : a.job.address = job.address := by rw [hajob]
          refine ⟨i, ws, hget, hout.symm, ?_, updateWorkingState_technician ws a, ?_, ?_, ?_,
            hjid, hjdate, hjaddr, ?_⟩
          · intro j hj
            rw [← hout]
            exact List.getElem?_set_ne (fun hc => hj hc.symm)
          · rw [updateWorkingState_address, hjaddr]
          · rw [← hjdate]
            exact update_get_date ws a
          · intro d hd
            exact update_get_date_ne ws a d (by rw [hjdate]; exact hd)
          · by_cases hfx : (job.is_time_fixed && job.fixed_start_time.isSome) = true
            · rw [if_pos hfx]
              have hfxa : (a.job.is_time_fixed && a.job.fixed_start_time.isSome) = true := by
                rw [hajob]
                exact hfx
              unfold checkTimeFit at hfit
              dsimp only at hfit
              rw [if_pos hfx] at hfit
              unfold checkFixedTimeFit at hfit
              cases hparse : parseTime? job.fixed_start_time with
              | none =>
                rw [hparse] at hfit
                dsimp only at hfit
                cases hfit
              | some sm =>
                have hparsea : parseTime? a.job.fixed_start_time = some sm := by
                  rw [hajob]
                  exact hparse
                have haest : a.estimated_end_time.isSome = true := by
                  rw [← ha]
                  rw [← ha] at hfxa hparsea
                  rw [createAssignment_job] at hfxa hparsea
                  unfold createAssignment
                  rw [if_pos hfxa, hparsea]
                  rfl
                obtain ⟨hl1, hl2⟩ := updateWorkingState_last_some ws a haest
                exact ⟨haest, hl1, by rw [hl2, hjdate]⟩
            · rw [if_neg hfx]
              have hfxa : (a.job.is_time_fixed && a.job.fixed_start_time.isSome) = false := by
                rw [hajob]
                exact Bool.eq_false_iff.mpr hfx
              have haest : a.estimated_end_time = none := by
                rw [← ha]
                rw [← ha] at hfxa
                rw [createAssignment_job] at hfxa
                unfold createAssignment
                rw [if_neg (by rw [hfxa]; exact Bool.false_ne_true)]
              obtain ⟨hl1, hl2⟩ := updateWorkingState_last_none ws a (by rw [haest]; rfl)
              exact ⟨haest, hl1, hl2⟩

/-- C9 (witness): committing the flexible job J1 to the sole technician. -/
theorem C9_witness :
    ∃ i ws, [initWorkingState exTech][i]? = some ws ∧
      [updateWorkingState (initWorkingState exTech) exCommitA] =
        [initWorkingState exTech].set i (updateWorkingState ws exCommitA) ∧
      (∀ j, j ≠ i → [updateWorkingState (initWorkingState exTech) exCommitA][j]? =
        [initWorkingState exTech][j]?) ∧
      (updateWorkingState ws exCommitA).technician = ws.technician ∧
      (updateWorkingState ws exCommitA).current_address = exJobD1.address ∧
      (updateWorkingState ws exCommitA).get_assignments_for_date exJobD1.date =
        ws.get_assignments_for_date exJobD1.date ++ [exCommitA] ∧
      (∀ d, d ≠ exJobD1.date →
        (updateWorkingState ws exCommitA).get_assignments_for_date d =
          ws.get_assignments_for_date d) ∧
      exCommitA.job.job_id = exJobD1.job_id ∧ exCommitA.job.date = exJobD1.date ∧
      exCommitA.job.address = exJobD1.address ∧
      (if (exJobD1.is_time_fixed && exJobD1.fixed_start_time.isSome) = true then
        exCommitA.estimated_end_time.isSome = true ∧
        (updateWorkingState ws exCommitA).last_work_end_time =
          exCommitA.estimated_end_time ∧
        (updateWorkingState ws exCommitA).last_work_date = some exJobD1.date
      else
        exCommitA.estimated_end_time = none ∧
        (updateWorkingState ws exCommitA).last_work_end_time = ws.last_work_end_time ∧
        (updateWorkingState ws exCommitA).last_work_date = ws.last_work_date) :=
  C9_commit_frame exTravel0 exRules [initWorkingState exTech] exJobD1
    [updateWorkingState (initWorkingState exTech) exCommitA] exCommitA exJobD1
    (by decide) (by decide)

theorem foldl_scoreStep_jid (travel : String → String → ℚ) (rules : SystemRules)
    (l : List (Nat × TechnicianWorkingState)) (acc : LoopAcc) :
    (l.foldl (scoreStep travel rules) acc).job.job_id = acc.job.job_id := by
  rw [foldl_scoreStep_job]

theorem assignSingleJob_ids (travel : String → String → ℚ) (rules : SystemRules)
    (states : List TechnicianWorkingState) (job : Job) :
    (∀ a, (assignSingleJob travel rules states job).2.1 = some a →
      a.job.job_id = job.job_id) ∧
    (assignSingleJob travel rules states job).2.2.job_id = job.job_id := by
  unfold assignSingleJob
  dsimp only
  by_cases hav : (states.enum.filter
      (fun p => p.2.technician.can_handle_service job.service_type)).isEmpty = true
  · rw [if_pos hav]
    refine ⟨fun a h => ?_, rfl⟩
    rw [← Option.some.inj h]
    rfl
  · rw [if_neg hav]
    by_cases hcap : ((states.enum.filter
        (fun p => p.2.technician.can_handle_service job.service_type)).filter
      (fun p => p.2.can_assign_date job.date rules.max_preassign_days)).isEmpty = true
    · rw [if_pos hcap]
      refine ⟨fun a h => ?_, rfl⟩
      cases h
    · rw [if_neg hcap]
      cases hbest : (List.foldl (scoreStep travel rules) ⟨none, job⟩
          ((states.enum.filter
            (fun p => p.2.technician.can_handle_service job.service_type)).filter
          (fun p => p.2.can_assign_date job.date rules.max_preassign_days))).best with
      | none =>
        dsimp only
        refine ⟨fun a h => ?_, ?_⟩
        · rw [← Option.some.inj h]
          exact foldl_scoreStep_jid travel rules _ ⟨none, job⟩
        · exact foldl_scoreStep_jid travel rules _ ⟨none, job⟩
      | some b =>
        obtain ⟨i, ws, s, t⟩ := b
        dsimp only
        refine ⟨fun a h => ?_, ?_⟩
        · rw [← Option.some.inj h, createAssignment_job]
          exact foldl_scoreStep_jid travel rules _ ⟨none, job⟩
        · exact foldl_scoreStep_jid travel rules _ ⟨none, job⟩

theorem assignJobs_cons_err (travel : String → String → ℚ) (rules : SystemRules)
    (states : List TechnicianWorkingState) (job : Job) (rest : List Job)
    (herr : optStrTruthy job.error_reason = true) :
    assignJobs travel rules states (job :: rest) =
      { assignJobs travel rules states rest with
        failed := (createFailedAssignment job (job.error_reason.getD "")).1 ::
          (assignJobs travel rules states rest).failed } := by
  simp only [assignJobs, herr, if_true]

theorem assignJobs_cons_none (travel : String → String → ℚ) (rules : SystemRules)
    (states : List TechnicianWorkingState) (job : Job) (rest : List Job)
    (herr : optStrTruthy job.error_reason = false)
    (hres : (assignSingleJob travel rules states job).2.1 = none) :
    assignJobs travel rules states (job :: rest) =
      { assignJobs travel rules (assignSingleJob travel rules states job).1 rest with
        deferred := (createFailedAssignment (assignSingleJob travel rules states job).2.2
            "MAX_PREASSIGN_DAYS_EXCEEDED").1 ::
          (assignJobs travel rules
            (assignSingleJob travel rules states job).1 rest).deferred } := by
  simp only [assignJobs, herr, Bool.false_eq_true, if_false, hres]

theorem assignJobs_cons_failed (travel : String → String → ℚ) (rules : SystemRules)
    (states : List TechnicianWorkingState) (job : Job) (rest : List Job) (a : Assignment)
    (herr : optStrTruthy job.error_reason = false)
    (hres : (assignSingleJob travel rules states job).2.1 = some a)
    (hstat : a.status = "failed") :
    assignJobs travel rules states (job :: rest) =
      { assignJobs travel rules (assignSingleJob travel rules states job).1 rest with
        failed := a ::
          (assignJobs travel rules
            (assignSingleJob travel rules states job).1 rest).failed } := by
  simp only [assignJobs, herr, Bool.false_eq_true, if_false, hres, hstat, if_true]

theorem assignJobs_cons_ok (travel : String → String → ℚ) (rules : SystemRules)
    (states : List TechnicianWorkingState) (job : Job) (rest : List Job) (a : Assignment)
    (herr : optStrTruthy job.error_reason = false)
    (hres : (assignSingleJob travel rules states job).2.1 = some a)
    (hstat : ¬a.status = "failed") :
    assignJobs travel rules states (job :: rest) =
      { assignJobs travel rules (assignSingleJob travel rules states job).1 rest with
        assigned := a ::
          (assignJobs travel rules
            (assignSingleJob travel rules states job).1 rest).assigned } := by
  simp only [assignJobs, herr, Bool.false_eq_true, if_false, hres, hstat]

/-- C1: the three output lists of assign_jobs partition the input jobs by job
identity: their job-id multisets together are a permutation of the input's
job ids, the lengths add up, each output list preserves the input order (its
job-id sequence is a subsequence of the input's), and the jobs already
carrying an error reason before scheduling appear, in order, in the failed
list. -/
theorem C1_partition (travel : String → String → ℚ) (rules : SystemRules)
    (states : List TechnicianWorkingState) (jobs : List Job) :
    (((assignJobs travel rules states jobs).assigned ++
        (assignJobs travel rules states jobs).failed ++
        (assignJobs travel rules states jobs).deferred).map
      (fun a => a.job.job_id)).Perm (jobs.map Job.job_id) ∧
    ((assignJobs travel rules states jobs).assigned.map
      (fun a => a.job.job_id)).Sublist (jobs.map Job.job_id) ∧
    ((assignJobs travel rules states jobs).failed.map
      (fun a => a.job.job_id)).Sublist (jobs.map Job.job_id) ∧
    ((assignJobs travel rules states jobs).deferred.map
      (fun a => a.job.job_id)).Sublist (jobs.map Job.job_id) ∧
    (assignJobs travel rules states jobs).assigned.length +
      (assignJobs travel rules states jobs).failed.length +
      (assignJobs travel rules states jobs).deferred.length = jobs.length ∧
    ((jobs.filter (fun j => optStrTruthy j.error_reason)).map Job.job_id).Sublist
      ((assignJobs travel rules states jobs).failed.map (fun a => a.job.job_id)) := by
  induction jobs generalizing states with
  | nil =>
    simp [assignJobs]
  | cons job rest ih =>
    by_cases herr : optStrTruthy job.error_reason = true
    · rw [assignJobs_cons_err travel rules states job rest herr]
      obtain ⟨ihp, iha, ihf, ihd, ihl, ihpre⟩ := ih states
      dsimp only
      have hx : ((createFailedAssignment job (job.error_reason.getD "")).1).job.job_id
          = job.job_id := rfl
      refine ⟨?_, ?_, ?_, ?_, ?_, ?_⟩
      · simp only [List.map_append, List.map_cons] at ihp ⊢
        rw [List.append_assoc, List.cons_append]
        rw [List.append_assoc] at ihp
        refine List.Perm.trans List.perm_middle ?_
        rw [hx]
        exact ihp.cons job.job_id
      · exact iha.cons job.job_id
      · simp only [List.map_cons, hx]
        exact ihf.cons₂ job.job_id
      · exact ihd.cons job.job_id
      · simp only [List.length_cons]
        omega
      · simp only [List.filter_cons, herr, if_true, List.map_cons, hx]
        exact ihpre.cons₂ job.job_id
    · have herr2 : optStrTruthy job.error_reason = false := by
        cases hv : optStrTruthy job.error_reason
        · rfl
        · exact absurd hv herr
      obtain ⟨ihp, iha, ihf, ihd, ihl, ihpre⟩ :=
        ih (assignSingleJob travel rules states job).1
      cases hres : (assignSingleJob travel rules states job).2.1 with
      | none =>
        rw [assignJobs_cons_none travel rules states job rest herr2 hres]
        dsimp only
        have hx : ((createFailedAssignment (assignSingleJob travel rules states job).2.2
            "MAX_PREASSIGN_DAYS_EXCEEDED").1).job.job_id = job.job_id := by
          have h2 := (assignSingleJob_ids travel rules states job).2
          simpa using h2
        refine ⟨?_, ?_, ?_, ?_, ?_, ?_⟩
        · simp only [List.map_append, List.map_cons] at ihp ⊢
          refine List.Perm.trans List.perm_middle ?_
          rw [hx]
          exact ihp.cons job.job_id
        · exact iha.cons job.job_id
        · exact ihf.cons job.job_id
        · simp only [List.map_cons, hx]
          exact ihd.cons₂ job.job_id
        · simp only [List.length_cons]
          omega
        · simp only [List.filter_cons, herr2, Bool.false_eq_true, if_false]
          exact ihpre
      | some a =>
        have hxa : a.job.job_id = job.job_id :=
          (assignSingleJob_ids travel rules states job).1 a hres
        by_cases hstat : a.status = "failed"
        · rw [assignJobs_cons_failed travel rules states job rest a herr2 hres hstat]
          dsimp only
          refine ⟨?_, ?_, ?_, ?_, ?_, ?_⟩
          · simp only [List.map_append, List.map_cons] at ihp ⊢
            rw [List.append_assoc, List.cons_append]
            rw [List.append_assoc] at ihp
            refine List.Perm.trans List.perm_middle ?_
            rw [hxa]
            exact ihp.cons job.job_id
          · exact iha.cons job.job_id
          · simp only [List.map_cons, hxa]
            exact ihf.cons₂ job.job_id
          · exact ihd.cons job.job_id
          · simp only [List.length_cons]
            omega
          · simp only [List.filter_cons, herr2, Bool.false_eq_true, if_false]
            exact ihpre.cons a.job.job_id
        · rw [assignJobs_cons_ok travel rules states job rest a herr2 hres hstat]
          dsimp only
          refine ⟨?_, ?_, ?_, ?_, ?_, ?_⟩
          · simp only [List.map_append, List.map_cons, List.cons_append] at ihp ⊢
            rw [hxa]
            exact ihp.cons job.job_id
          · simp only [List.map_cons, hxa]
            exact iha.cons₂ job.job_id
          · exact ihf.cons job.job_id
          · exact ihd.cons job.job_id
          · simp only [List.length_cons]
            omega
          · simp only [List.filter_cons, herr2, Bool.false_eq_true, if_false]
            exact ihpre

/-- C10 (witness): concrete flexible job under the 18:00 work end. -/
theorem C10_witness :
    checkUndefinedTimeFit exRules exJobD1 0 [] exTech = .fits 0 ∨
    checkUndefinedTimeFit exRules exJobD1 0 [] exTech = .nofit "슬롯 크기 초과" :=
  C10_flexible_no_overtime exRules exJobD1 0 [] exTech (by decide)

end Cleanbear
